import Mathlib

/-!
Verification of the `wrap_functions.py` rewriting script.

The script performs, per requested function name, two `re.sub` passes over the
file content:

* an entry rewrite driven by the pattern
  `(export async function NAME\([^)]*\)[^{]*\{\s*)try \{`
  (the name is interpolated into the pattern without escaping), and
* an exit rewrite driven by the constant pattern
  `(\s*)\} catch \(error\) \{[^}]*console\.error\([^)]*\);[^}]*return \{[^}]*success: false,[^}]*error: [^}]*\};(\s*)\}`.

Both replacement templates are constants.  The catch replacement is built in
the source from three adjacent Python string literals with differing prefixes
(`rf'\1}}, '`, `'{function_name}'`, `');\2}}'`), so its value is the constant
`\1}, {function_name});` + chr(2) + `}}`: the middle literal has no `f` prefix
(so `{function_name}` is literal text) and the last literal is neither raw nor
formatted (so `\2` is the octal escape for U+0002 and `}}` is two braces).

We embed regular expressions by a small syntax `RE` covering exactly the
constructs that occur in the script's patterns (literal characters, character
classes, greedy Kleene star over a single-character class, and numbered
groups), a backtracking matcher with Python's leftmost-then-greedy semantics,
a model of `re.compile` as a parser over the pattern string (returning `none`
on the malformed patterns that make Python raise `re.error`, e.g. an
unbalanced `(` coming from an interpolated name), and `re.sub` as repeated
leftmost matching.  Pattern constructs outside this subset (`+`, `?`, `|`,
`.`, anchors, repetition braces, star over a group) are conservatively
rejected by the parser; none of them occur in the script's patterns.  `\s` is modelled by
the ASCII whitespace class, which agrees with Python on all contents used
here.
-/

set_option maxRecDepth 100000

namespace WrapFunctions

/-- Single-character classes appearing in the patterns. -/
inductive CC where
  | oneOf : List Char → CC
  | notOneOf : List Char → CC
  | space : CC
deriving DecidableEq

/-- ASCII whitespace, the characters Python's `\s` matches on ASCII text. -/
def isSpaceChar (c : Char) : Bool :=
  c == ' ' || c == '\t' || c == '\n' || c == '\r' || c == '\x0b' || c == '\x0c'

/-- Whether a character class accepts a character. -/
def CC.holds : CC → Char → Bool
  | .oneOf cs, c => cs.contains c
  | .notOneOf cs, c => !(cs.contains c)
  | .space, c => isSpaceChar c

/-- Regular-expression syntax: the subset used by the script's patterns.
Kleene star is restricted to single-character classes, which makes the
backtracking matcher structurally terminating; every starred subpattern in
the script is of this shape. -/
inductive RE where
  | eps : RE
  | ch : Char → RE
  | cls : CC → RE
  | star : CC → RE
  | seq : RE → RE → RE
  | group : Nat → RE → RE
deriving DecidableEq

/-- Right-nested sequencing of a list of regular expressions. -/
def seqList : List RE → RE
  | [] => RE.eps
  | r :: rs => RE.seq r (seqList rs)

/-! ### The pattern compiler, modelling `re.compile`

`re.sub` first compiles its pattern string; a malformed pattern (such as one
produced by interpolating a name containing `(`) raises `re.error`.  We model
compilation as a parser from the pattern text to `RE`, with `none` playing
the role of `re.error`. -/

/-- Characters the parser treats as plain literals (everything except the
metacharacters it handles or rejects). -/
def plainLit (c : Char) : Bool :=
  !(c == '(' || c == ')' || c == '[' || c == '\\' || c == '.' || c == '*' ||
    c == '+' || c == '?' || c == '|' || c == '^' || c == '\x24' ||
    c == '\x7b' || c == '\x7d')

/-- Identifier characters: letters, digits and underscore — the characters a
function name consists of when it is a legal identifier. -/
def identChar (c : Char) : Bool :=
  c.isAlphanum || c == '_'

/-- Punctuation that may follow a backslash to denote a literal character. -/
def escLit (c : Char) : Bool :=
  c == '(' || c == ')' || c == '\x7b' || c == '\x7d' || c == '.' ||
  c == '\\' || c == '[' || c == ']' || c == '*' || c == '+' || c == '?' ||
  c == '|' || c == '^' || c == '\x24'

/-- Scan the member characters of a character class up to the closing `]`.
Returns `none` when the class is unterminated. -/
def classChars : List Char → Option (List Char × List Char)
  | [] => none
  | c :: t =>
    if c = ']' then some ([], t)
    else (classChars t).map (fun p => (c :: p.1, p.2))

/-- Parse the inside of a `[...]` class, starting just after the `[`. -/
def classSpan (t : List Char) : Option (Bool × List Char × List Char) :=
  match t with
  | '^' :: t2 => (classChars t2).map (fun p => (true, p.1, p.2))
  | _ => (classChars t).map (fun p => (false, p.1, p.2))

/-- Build the class matcher from the negation flag and the member list. -/
def ccOf (neg : Bool) (members : List Char) : CC :=
  if neg then CC.notOneOf members else CC.oneOf members

/-- Handling of one pattern character.  `go` is the parser's recursive call
on the remaining fuel; `stack` holds, for each open group, its number and the
items accumulated outside it; `cur` holds the items of the innermost open
scope in reverse order; `gn` is the next group number. -/
def parseStep
    (go : List Char → List (Nat × List RE) → List RE → Nat → Option (List RE × Nat))
    (c : Char) (t : List Char) (stack : List (Nat × List RE)) (cur : List RE)
    (gn : Nat) : Option (List RE × Nat) :=
  if c = '(' then
    go t ((gn, cur) :: stack) [] (gn + 1)
  else if c = ')' then
    match stack with
    | [] => none
    | (n, saved) :: st =>
      match t with
      | '*' :: _ => none
      | _ => go t st (RE.group n (seqList cur.reverse) :: saved) gn
  else if c = '[' then
    match classSpan t with
    | none => none
    | some (neg, members, rest) =>
      match rest with
      | '*' :: t2 => go t2 stack (RE.star (ccOf neg members) :: cur) gn
      | _ => go rest stack (RE.cls (ccOf neg members) :: cur) gn
  else if c = '\\' then
    match t with
    | [] => none
    | e :: t2 =>
      if e = 's' then
        match t2 with
        | '*' :: t3 => go t3 stack (RE.star CC.space :: cur) gn
        | _ => go t2 stack (RE.cls CC.space :: cur) gn
      else if escLit e then
        match t2 with
        | '*' :: t3 => go t3 stack (RE.star (CC.oneOf [e]) :: cur) gn
        | _ => go t2 stack (RE.ch e :: cur) gn
      else none
  else if plainLit c then
    match t with
    | '*' :: t2 => go t2 stack (RE.star (CC.oneOf [c]) :: cur) gn
    | _ => go t stack (RE.ch c :: cur) gn
  else none

/-- One-pass pattern parser with an explicit stack of open groups.  `fuel`
only bounds the recursion; every call consumes at least one input character,
so `length + 1` fuel always suffices. -/
def parseLoop : Nat → List Char → List (Nat × List RE) → List RE → Nat →
    Option (List RE × Nat)
  | _, [], stack, cur, gn =>
    if stack.isEmpty then some (cur.reverse, gn) else none
  | 0, _ :: _, _, _, _ => none
  | fuel + 1, c :: t, stack, cur, gn => parseStep (parseLoop fuel) c t stack cur gn

/-- Model of `re.compile`: `none` models a raised `re.error`. -/
def compileRE (cs : List Char) : Option RE :=
  match parseLoop (cs.length + 1) cs [] [] 1 with
  | some (items, _) => some (seqList items)
  | none => none

/-! ### The matcher

Continuation-passing backtracking matcher.  Greedy star consumes first and
backtracks on failure, which is Python's preference order, so the first
success found is exactly the match Python produces. -/

/-- Captured groups, most recent first. -/
abbrev Caps := List (Nat × List Char)

/-- A matcher continuation: receives the remaining input and captures. -/
abbrev K := List Char → Caps → Option (List Char × Caps)

/-- Greedy star over a single-character class: consume while possible, then
backtrack one character at a time. -/
def mstar (cc : CC) : List Char → Caps → K → Option (List Char × Caps)
  | [], cp, k => k [] cp
  | c :: t, cp, k =>
    if CC.holds cc c then
      match mstar cc t cp k with
      | some res => some res
      | none => k (c :: t) cp
    else k (c :: t) cp

/-- Match a regular expression against a prefix of the input, calling the
continuation on what remains.  Group captures record the consumed slice. -/
def mtch : RE → List Char → Caps → K → Option (List Char × Caps)
  | .eps, s, cp, k => k s cp
  | .ch c, s, cp, k =>
    match s with
    | [] => none
    | c2 :: t => if c2 = c then k t cp else none
  | .cls cc, s, cp, k =>
    match s with
    | [] => none
    | c2 :: t => if CC.holds cc c2 then k t cp else none
  | .star cc, s, cp, k => mstar cc s cp k
  | .seq r1 r2, s, cp, k => mtch r1 s cp (fun s2 cp2 => mtch r2 s2 cp2 k)
  | .group n r, s, cp, k =>
    mtch r s cp (fun s2 cp2 => k s2 ((n, s.take (s.length - s2.length)) :: cp2))

/-- Leftmost match: try each start position from the left.  Returns the text
before the match, the matched slice, the captures, and the remainder. -/
def findFrom (r : RE) (s : List Char) :
    Option (List Char × List Char × Caps × List Char) :=
  match mtch r s [] (fun rest cp => some (rest, cp)) with
  | some (rest, cp) => some ([], s.take (s.length - rest.length), cp, rest)
  | none =>
    match s with
    | [] => none
    | c :: t =>
      match findFrom r t with
      | some (pre, m, cp, rest) => some (c :: pre, m, cp, rest)
      | none => none

/-! ### Replacement templates and substitution -/

/-- A parsed replacement-template item: a literal character or a group
backreference. -/
inductive RTok where
  | lit : Char → RTok
  | grp : Nat → RTok
deriving DecidableEq

/-- Parse a replacement template: `\N` is a backreference, `\\` a literal
backslash, every other character stands for itself.  (The script's templates
use only these forms.) -/
def parseRepl : List Char → Option (List RTok)
  | [] => some []
  | '\\' :: c :: t =>
    if c.isDigit then (parseRepl t).map (fun r => RTok.grp (c.toNat - 48) :: r)
    else if c = '\\' then (parseRepl t).map (fun r => RTok.lit '\\' :: r)
    else none
  | ['\\'] => none
  | c :: t => (parseRepl t).map (fun r => RTok.lit c :: r)

/-- Look up a captured group, most recent binding first. -/
def capLookup : Caps → Nat → List Char
  | [], _ => []
  | (m, v) :: rest, n => if m = n then v else capLookup rest n

/-- Instantiate a replacement template with the captures of a match. -/
def expand : List RTok → Caps → List Char
  | [], _ => []
  | RTok.lit c :: r, cp => c :: expand r cp
  | RTok.grp n :: r, cp => capLookup cp n ++ expand r cp

/-- Global substitution: repeatedly replace the leftmost match, continuing
after it (Python's `re.sub` with the default count).  `fuel` only bounds the
loop; each round past a nonempty match shortens the rest, so `length + 1`
fuel always suffices (the script's patterns can never match empty text). -/
def gsubF : Nat → RE → List RTok → List Char → List Char
  | 0, _, _, s => s
  | fuel + 1, r, repl, s =>
    match findFrom r s with
    | none => s
    | some (pre, m, cp, rest) =>
      if m.isEmpty then
        match rest with
        | [] => pre ++ expand repl cp
        | c :: t => pre ++ expand repl cp ++ c :: gsubF fuel r repl t
      else pre ++ expand repl cp ++ gsubF fuel r repl rest

/-- `re.sub` on an already compiled pattern and template. -/
def reGsub (r : RE) (repl : List RTok) (s : List Char) : List Char :=
  gsubF (s.length + 1) r repl s

/-- Model of `re.sub(pattern, repl, content, flags=re.DOTALL)`: compile the
pattern and the template, then substitute globally.  `.error` models a raised
`re.error`.  The `DOTALL` flag only changes `.`, which the script's patterns
do not contain. -/
def re_sub (pat repl s : List Char) : Except String (List Char) :=
  match compileRE pat, parseRepl repl with
  | some r, some ts => .ok (reGsub r ts s)
  | _, _ => .error "re.error"

/-! ### The script itself -/

/-- The entry pattern of `wrap_function` (source line 9): the f-string
`rf'(export async function {function_name}\([^)]*\)[^{{]*\{{\s*)try \{{'`,
with the function name interpolated verbatim. -/
def pattern (function_name : List Char) : List Char :=
  "(export async function ".data ++ function_name ++
    "\\([^)]*\\)[^\x7b]*\\\x7b\\s*)try \\\x7b".data

/-- The entry replacement (source line 10):
`r'\1return withServerActionErrorHandler(async () => {'`. -/
def replacement : List Char :=
  "\\1return withServerActionErrorHandler(async () => \x7b".data

/-- The catch pattern (source line 16). -/
def catch_pattern : List Char :=
  "(\\s*)\\\x7d catch \\(error\\) \\\x7b[^\x7d]*console\\.error\\([^)]*\\);[^\x7d]*return \\\x7b[^\x7d]*success: false,[^\x7d]*error: [^\x7d]*\\\x7d;(\\s*)\\\x7d".data

/-- The catch replacement (source line 17).  The source text
`rf'\1}}, ''{function_name}'');\2}}'` is the concatenation of three Python
string literals; because the middle one is not an f-string and the last one
is neither raw nor an f-string, the resulting value is the constant below:
the characters `{function_name}` appear literally and `\2` denotes U+0002,
not the second capture. -/
def catch_replacement : List Char :=
  "\\1\x7d, \x7bfunction_name\x7d);\x02\x7d\x7d".data

/-- `wrap_function(content, function_name)` (source lines 5-23): the two
`re.sub` passes threaded over the content.  `.error` models an uncaught
`re.error` escaping the call. -/
def wrap_function (content function_name : List Char) : Except String (List Char) :=
  match re_sub (pattern function_name) replacement content with
  | .error e => .error e
  | .ok content1 =>
    match re_sub catch_pattern catch_replacement content1 with
    | .error e => .error e
    | .ok content2 => .ok content2

/-! ### The driver (source lines 26-40) -/

/-- The `for func in functions` loop (source lines 33-34), threading the
content through `wrap_function` and propagating a raised exception. -/
def processFunctions : List Char → List (List Char) → Except String (List Char)
  | content, [] => .ok content
  | content, f :: rest =>
    match wrap_function content f with
    | .error e => .error e
    | .ok c2 => processFunctions c2 rest

/-- On-disk state of the target file. -/
inductive FileState where
  | absent : FileState
  | file (readable : Bool) (content : List Char) : FileState
deriving DecidableEq

/-- `open(filename, 'r')` followed by `f.read()`: fails on a missing or
unreadable file, modelling the uncaught `FileNotFoundError` and
`PermissionError`. -/
def readFile : FileState → Except String (List Char)
  | .absent => .error "FileNotFoundError"
  | .file false _ => .error "PermissionError"
  | .file true c => .ok c

/-- `open(filename, 'w')` followed by `f.write(content)`: truncating
overwrite. -/
def writeFile (c : List Char) : FileState :=
  .file true c

/-- The final `print(f"Wrapped {len(functions)} functions in {filename}")`. -/
def summaryLine (functions : List (List Char)) (filename : List Char) : List Char :=
  "Wrapped ".data ++ (Nat.repr functions.length).data ++
    " functions in ".data ++ filename

/-- A whole run of the script on one file: read, loop, write, print.  The
result pairs the final file state with either the printed summary line or
the exception that aborted the process; on an abort the file was never
opened for writing, so its state is the input state. -/
def runScript (st : FileState) (functions : List (List Char))
    (filename : List Char) : FileState × Except String (List Char) :=
  match readFile st with
  | .error e => (st, .error e)
  | .ok content =>
    match processFunctions content functions with
    | .error e => (st, .error e)
    | .ok c2 => (writeFile c2, .ok (summaryLine functions filename))

/-! ### The compiled patterns and templates, named

These are the values `compileRE` and `parseRepl` produce on the script's
pattern and template strings; the lemmas connecting them are proved below. -/

/-- Literal-character items for a string. -/
def chs (s : String) : List RE := s.data.map RE.ch

/-- The non-literal tail of the entry pattern's capture group:
`\([^)]*\)[^{]*\{\s*`. -/
def patTail : List RE :=
  [RE.ch '(', RE.star (CC.notOneOf [')']), RE.ch ')',
   RE.star (CC.notOneOf ['\x7b']), RE.ch '\x7b', RE.star CC.space]

/-- The text of the entry pattern after the interpolated name (the third of
the three pieces concatenated in `pattern`). -/
def patternTail : List Char :=
  "\\([^)]*\\)[^\x7b]*\\\x7b\\s*)try \\\x7b".data

/-- The compiled entry pattern for a name free of metacharacters. -/
def patARE (function_name : List Char) : RE :=
  seqList (RE.group 1 (seqList (chs "export async function " ++
    function_name.map RE.ch ++ patTail)) :: chs "try \x7b")

/-- The compiled catch pattern. -/
def catchRE : RE :=
  seqList ([RE.group 1 (seqList [RE.star CC.space])] ++
    chs "\x7d catch (error) \x7b" ++ [RE.star (CC.notOneOf ['\x7d'])] ++
    chs "console.error(" ++ [RE.star (CC.notOneOf [')'])] ++
    chs ");" ++ [RE.star (CC.notOneOf ['\x7d'])] ++
    chs "return \x7b" ++ [RE.star (CC.notOneOf ['\x7d'])] ++
    chs "success: false," ++ [RE.star (CC.notOneOf ['\x7d'])] ++
    chs "error: " ++ [RE.star (CC.notOneOf ['\x7d'])] ++
    chs "\x7d;" ++ [RE.group 2 (seqList [RE.star CC.space])] ++ chs "\x7d")

/-- The parsed entry replacement template. -/
def replacementToks : List RTok :=
  RTok.grp 1 ::
    "return withServerActionErrorHandler(async () => \x7b".data.map RTok.lit

/-- The parsed catch replacement template: one backreference to group 1
followed by constant text; in particular there is no backreference to
group 2, the captured trailing whitespace. -/
def catchReplacementToks : List RTok :=
  RTok.grp 1 :: "\x7d, \x7bfunction_name\x7d);\x02\x7d\x7d".data.map RTok.lit

/-! ### Concrete contents used by the claims -/

/-- The end-to-end scenario file content from the spec. -/
def demoContent : List Char :=
  "export async function save(x) \x7b try \x7b doWork(x); \x7d catch (error) \x7b console.error(e); return \x7b success: false, error: e \x7d; \x7d \x7d".data

/-- What the script actually produces on `demoContent` for the name `save`:
the entry rewrite succeeds, but the catch block becomes the constant
`\x7d, \x7bfunction_name\x7d);` followed by U+0002 and `\x7d\x7d`. -/
def demoOutput : List Char :=
  "export async function save(x) \x7b return withServerActionErrorHandler(async () => \x7b doWork(x); \x7d, \x7bfunction_name\x7d);\x02\x7d\x7d \x7d".data

/-- A second well-formed input, for the name `remove`. -/
def removeContent : List Char :=
  "export async function remove(id) \x7b try \x7b removeItem(id); \x7d catch (error) \x7b console.error(err); return \x7b success: false, error: err \x7d; \x7d \x7d".data

/-- The script's actual output on `removeContent` for the name `remove`. -/
def removeOutput : List Char :=
  "export async function remove(id) \x7b return withServerActionErrorHandler(async () => \x7b removeItem(id); \x7d, \x7bfunction_name\x7d);\x02\x7d\x7d \x7d".data

/-- A catch block with no surrounding function and no occurrence of `save`. -/
def orphanCatch : List Char :=
  "\x7d catch (error) \x7b console.error(e); return \x7b success: false, error: e \x7d; \x7d".data

/-- The script's output on `orphanCatch` for any name whose entry pattern
finds no match: the catch substitution still fires. -/
def orphanCatchOut : List Char :=
  "\x7d, \x7bfunction_name\x7d);\x02\x7d\x7d".data

/-- Two functions, each with a matching failure block; the target `save`
comes second. -/
def twoFuncContent : List Char :=
  "export async function other(y) \x7b try \x7b a(y); \x7d catch (error) \x7b console.error(x); return \x7b success: false, error: x \x7d; \x7d \x7d export async function save(x) \x7b try \x7b doWork(x); \x7d catch (error) \x7b console.error(e); return \x7b success: false, error: e \x7d; \x7d \x7d".data

/-- The script's actual output on `twoFuncContent` for the name `save`:
both failure blocks are replaced, including the one of `other`, whose
guarded block was never rewritten. -/
def twoFuncOutput : List Char :=
  "export async function other(y) \x7b try \x7b a(y); \x7d, \x7bfunction_name\x7d);\x02\x7d\x7d \x7d export async function save(x) \x7b return withServerActionErrorHandler(async () => \x7b doWork(x); \x7d, \x7bfunction_name\x7d);\x02\x7d\x7d \x7d".data

/-- What claim C4 predicts on `twoFuncContent`: only the first failure block
(of `other`) replaced, the failure block of `save` left intact. -/
def twoFuncFirstOnly : List Char :=
  "export async function other(y) \x7b try \x7b a(y); \x7d, \x7bfunction_name\x7d);\x02\x7d\x7d \x7d export async function save(x) \x7b return withServerActionErrorHandler(async () => \x7b doWork(x); \x7d catch (error) \x7b console.error(e); return \x7b success: false, error: e \x7d; \x7d \x7d".data

lemma compile_catch_pattern : compileRE catch_pattern = some catchRE := by decide

lemma parseRepl_replacement : parseRepl replacement = some replacementToks := by
  decide

lemma parseRepl_catch_replacement :
    parseRepl catch_replacement = some catchReplacementToks := by decide

/-- A substitution with no match leaves the text unchanged. -/
lemma reGsub_of_none {r : RE} {repl : List RTok} {s : List Char}
    (h : findFrom r s = none) : reGsub r repl s = s := by
  unfold reGsub
  simp only [gsubF]
  rw [h]

/-- `re_sub` on a pattern and template that compile. -/
lemma re_sub_eq {pat repl s : List Char} {r : RE} {ts : List RTok}
    (hc : compileRE pat = some r) (ht : parseRepl repl = some ts) :
    re_sub pat repl s = .ok (reGsub r ts s) := by
  unfold re_sub
  rw [hc, ht]

/-- `wrap_function` on a name whose entry pattern compiles: the two
substitution passes in sequence. -/
lemma wrap_function_eq {content f : List Char} {r : RE}
    (hc : compileRE (pattern f) = some r) :
    wrap_function content f =
      .ok (reGsub catchRE catchReplacementToks (reGsub r replacementToks content)) := by
  simp only [wrap_function, re_sub_eq hc parseRepl_replacement,
    re_sub_eq compile_catch_pattern parseRepl_catch_replacement]

/-! ### Compiling the entry pattern of an identifier name

For a name made of identifier characters, interpolation produces a pattern
that compiles to the literal-search regex `patARE`; and a match of that
regex must start with the header text followed by the name. -/

lemma identChar_plainLit {c : Char} (h : identChar c = true) : plainLit c = true := by
  have hne : ∀ d : Char, identChar d = false → (c == d) = false := by
    intro d hd
    refine beq_eq_false_iff_ne.mpr ?_
    intro he
    rw [he, hd] at h
    exact Bool.noConfusion h
  unfold plainLit
  rw [hne '(' (by decide), hne ')' (by decide), hne '[' (by decide),
    hne '\\' (by decide), hne '.' (by decide), hne '*' (by decide),
    hne '+' (by decide), hne '?' (by decide), hne '|' (by decide),
    hne '^' (by decide), hne '\x24' (by decide), hne '\x7b' (by decide),
    hne '\x7d' (by decide)]
  rfl

lemma plainLit_ne {c : Char} (h : plainLit c = true) :
    c ≠ '(' ∧ c ≠ ')' ∧ c ≠ '[' ∧ c ≠ '\\' ∧ c ≠ '*' := by
  refine ⟨?_, ?_, ?_, ?_, ?_⟩ <;>
    · intro he
      subst he
      exact absurd h (by decide)

set_option maxHeartbeats 1000000

/-- Running the parser over consecutive plain literal characters only
accumulates them, provided the text afterwards does not begin with `*`. -/
lemma parseLoop_lits (l : List Char) (hl : ∀ a ∈ l, plainLit a = true)
    (rest : List Char) (hr : ∀ t, rest ≠ '*' :: t) :
    ∀ (fuel : Nat) (stack : List (Nat × List RE)) (cur : List RE) (gn : Nat),
      parseLoop (fuel + l.length) (l ++ rest) stack cur gn =
        parseLoop fuel rest stack (List.reverseAux (l.map RE.ch) cur) gn := by
  induction l with
  | nil => intro fuel stack cur gn; rfl
  | cons c l' ih =>
    intro fuel stack cur gn
    have hc : plainLit c = true := hl c (by simp)
    obtain ⟨h1, h2, h3, h4, _⟩ := plainLit_ne hc
    show parseLoop ((fuel + l'.length) + 1) (c :: (l' ++ rest)) stack cur gn = _
    simp only [parseLoop]
    unfold parseStep
    rw [if_neg h1, if_neg h2, if_neg h3, if_neg h4, if_pos hc]
    have hstep := ih (fun d hd => hl d (by simp [hd])) fuel stack (RE.ch c :: cur) gn
    split
    · next t2 heq =>
        exfalso
        cases l' with
        | nil => exact hr t2 heq
        | cons c2 l'' =>
          injection heq with hc2 _
          have := hl c2 (by simp)
          rw [hc2] at this
          exact absurd this (by decide)
    · exact hstep

/-- Running the parser over the concrete tail of the entry pattern closes
group 1 and appends the trailing literal items. -/
lemma parseLoop_patternTail (fuel : Nat) (cur : List RE) :
    parseLoop (fuel + 13) patternTail [(1, [])] cur 2 =
      some (RE.group 1 (seqList (List.reverseAux cur patTail)) :: chs "try \x7b", 2) :=
  rfl

/-- The entry pattern of an identifier name compiles to `patARE`. -/
lemma compile_pattern_ident {f : List Char} (hf : ∀ a ∈ f, identChar a = true) :
    compileRE (pattern f) = some (patARE f) := by
  have hhdr : ∀ a ∈ "export async function ".data, plainLit a = true := by decide
  have hall : ∀ a ∈ "export async function ".data ++ f, plainLit a = true := by
    intro a ha
    rcases List.mem_append.mp ha with h | h
    · exact hhdr a h
    · exact identChar_plainLit (hf a h)
  have hr : ∀ t, patternTail ≠ '*' :: t := by
    intro t he
    have h1 : patternTail.headD ' ' = '*' := by rw [he]; rfl
    exact absurd h1 (by decide)
  unfold compileRE
  have hsh : pattern f = '(' :: (("export async function ".data ++ f) ++ patternTail) := by
    simp [pattern, patternTail, List.append_assoc]
  rw [hsh]
  have hpt : patternTail.length = 26 := by decide
  have hlen : ('(' :: (("export async function ".data ++ f) ++ patternTail)).length + 1 =
      ((27 + ("export async function ".data ++ f).length) + 1) := by
    simp [List.length_append, hpt]
    omega
  rw [hlen]
  have step1 : parseLoop ((27 + ("export async function ".data ++ f).length) + 1)
      ('(' :: (("export async function ".data ++ f) ++ patternTail)) [] [] 1 =
      parseLoop (27 + ("export async function ".data ++ f).length)
        (("export async function ".data ++ f) ++ patternTail) [(1, [])] [] 2 := rfl
  rw [step1]
  rw [parseLoop_lits ("export async function ".data ++ f) hall patternTail hr 27
    [(1, [])] [] 2]
  rw [parseLoop_patternTail 14 (List.reverseAux (("export async function ".data ++ f).map RE.ch) [])]
  simp [patARE, chs, List.reverseAux_eq, List.map_append, List.append_assoc]

/-- A successful match of a sequence that begins with literal characters
forces those characters to be a prefix of the input. -/
lemma mtch_lits_isSome {l : List Char} {rs : List RE} :
    ∀ {s : List Char} {cp : Caps} {k : K},
      (mtch (seqList (l.map RE.ch ++ rs)) s cp k).isSome = true → l <+: s := by
  induction l with
  | nil => intro s cp k _; exact List.nil_prefix
  | cons c l' ih =>
    intro s cp k h
    cases s with
    | nil => exact absurd h (by simp [seqList, mtch])
    | cons c2 t =>
      by_cases hc : c2 = c
      · subst hc
        have h' : (mtch (seqList (l'.map RE.ch ++ rs)) t cp k).isSome = true := by
          simpa [seqList, mtch] using h
        exact List.cons_prefix_cons.mpr ⟨rfl, ih h'⟩
      · exact absurd h (by simp [seqList, mtch, hc])

/-- A successful entry-pattern match begins with the header and the name. -/
lemma mtch_patARE_isSome {f s : List Char} {cp : Caps} {k : K}
    (h : (mtch (patARE f) s cp k).isSome = true) :
    ("export async function ".data ++ f) <+: s := by
  apply mtch_lits_isSome
  simpa [patARE, chs, mtch, seqList, List.map_append, List.append_assoc] using h

/-- If the header followed by the name occurs nowhere in the content, the
entry pattern matches nowhere. -/
lemma findFrom_patARE_none {f : List Char} :
    ∀ {s : List Char}, ¬ (("export async function ".data ++ f) <:+: s) →
      findFrom (patARE f) s = none := by
  intro s
  induction s with
  | nil =>
    intro hocc
    cases hm : mtch (patARE f) [] ([] : Caps) (fun rest cp => some (rest, cp)) with
    | some res =>
      exfalso
      have hpre := mtch_patARE_isSome (show (mtch (patARE f) [] ([] : Caps)
        (fun rest cp => some (rest, cp))).isSome = true by rw [hm]; rfl)
      exact hocc hpre.isInfix
    | none => simp [findFrom, hm]
  | cons a t ih =>
    intro hocc
    cases hm : mtch (patARE f) (a :: t) ([] : Caps) (fun rest cp => some (rest, cp)) with
    | some res =>
      exfalso
      have hpre := mtch_patARE_isSome (show (mtch (patARE f) (a :: t) ([] : Caps)
        (fun rest cp => some (rest, cp))).isSome = true by rw [hm]; rfl)
      exact hocc hpre.isInfix
    | none =>
      have ht : ¬ (("export async function ".data ++ f) <:+: t) := fun hin =>
        hocc (List.infix_cons hin)
      simp [findFrom, hm, ih ht]

/-! ### Claim theorems (concrete claims) -/

/-- Claim C1 (code bug): on the spec's end-to-end scenario the entry rewrite
behaves as claimed (`try \x7b` becomes the wrapper invocation opener and
`doWork(x);` is preserved), but the catch block is not replaced by a closer
with trailing argument `save`: the replacement inserts the literal text
`\x7bfunction_name\x7d);` followed by U+0002 and `\x7d\x7d`, and `save`
occurs nowhere in the output past the declaration header.  This theorem
evaluates the code at the failing input. -/
theorem claim1_end_to_end_actual :
    runScript (.file true demoContent) ["save".data] "actions.ts".data =
      (.file true demoOutput, .ok (summaryLine ["save".data] "actions.ts".data)) ∧
    "return withServerActionErrorHandler(async () => \x7b doWork(x); ".data <:+: demoOutput ∧
    "\x7d, \x7bfunction_name\x7d);\x02\x7d\x7d".data <:+: demoOutput ∧
    ¬ ("save".data <:+: demoOutput.drop 26) := by
  exact ⟨rfl, by decide, by decide, by decide⟩

/-- Claim C2 (code bug): the failure block is not replaced by a closer with
a trailing argument equal to the function name; the inserted argument is the
constant literal `\x7bfunction_name\x7d` for every name.  Evaluation at the
failing input `remove`: the output contains `\x7d, \x7bfunction_name\x7d);`
and no occurrence of `remove` after the declaration header (in particular
none as the trailing argument). -/
theorem claim2_trailing_argument_actual :
    wrap_function removeContent "remove".data = .ok removeOutput ∧
    "\x7d, \x7bfunction_name\x7d);".data <:+: removeOutput ∧
    ¬ ("\x7d, remove".data <:+: removeOutput) ∧
    ¬ ('\x27' ∈ removeOutput) := by
  exact ⟨rfl, by decide, by decide, by decide⟩

/-- Claim C3, counterexample: a content in which the name `save` does not
occur but which contains a failure block; `wrap_function` is not the
identity on it, because the catch substitution is not scoped to the name. -/
theorem claim3_counterexample :
    ¬ ("save".data <:+: orphanCatch) ∧
    wrap_function orphanCatch "save".data = .ok orphanCatchOut ∧
    orphanCatchOut ≠ orphanCatch := by
  exact ⟨by decide, rfl, by decide⟩

/-- Claim C4, counterexample: on a file with two matching failure blocks and
target name `save` owning the second one, the claim predicts the output
`twoFuncFirstOnly` (only the first block replaced, the block of `save`
intact); the code instead replaces both blocks. -/
theorem claim4_counterexample :
    wrap_function twoFuncContent "save".data = .ok twoFuncOutput ∧
    twoFuncOutput ≠ twoFuncFirstOnly ∧
    ¬ ("catch".data <:+: twoFuncOutput) := by
  exact ⟨rfl, by decide, by decide⟩

/-- Claim C4 as amended: the catch substitution is indeed not scoped to the
function of Step A, but it applies to every (non-overlapping) block matching
the failure shape — the first such block and also the one belonging to the
named function.  On `twoFuncContent` both failure blocks are present before
the call and none remains after it; the first function's guarded block
(`try \x7b a(y);`) is left un-rewritten while its failure block is replaced. -/
theorem claim4_amended :
    wrap_function twoFuncContent "save".data = .ok twoFuncOutput ∧
    "\x7d catch (error) \x7b console.error(x);".data <:+: twoFuncContent ∧
    "\x7d catch (error) \x7b console.error(e);".data <:+: twoFuncContent ∧
    ¬ ("catch".data <:+: twoFuncOutput) ∧
    "try \x7b a(y); \x7d, \x7bfunction_name\x7d);".data <:+: twoFuncOutput := by
  exact ⟨rfl, by decide, by decide, by decide, by decide⟩

/-- Claim C10: interpolating a name containing an unbalanced `(` into the
entry pattern makes compilation fail; `wrap_function` raises `re.error`
instead of returning text, the process aborts, and the file is left
unchanged. -/
theorem claim10_metachar_name :
    compileRE (pattern "(".data) = none ∧
    wrap_function "abc".data "(".data = .error "re.error" ∧
    runScript (.file true "abc".data) ["(".data] "a.ts".data =
      (.file true "abc".data, .error "re.error") := by
  exact ⟨by decide, rfl, rfl⟩

/-! ### Claim theorems (driver and I/O claims) -/

/-- Claim C5: the driver loop is exactly the left fold of the single-name
transform over the argument list, threading the content through each pass in
order (with a raised `re.error` propagating out of the fold). -/
theorem claim5_driver_is_fold (content : List Char) (functions : List (List Char)) :
    processFunctions content functions = List.foldlM wrap_function content functions := by
  induction functions generalizing content with
  | nil => rfl
  | cons f rest ih =>
    simp only [processFunctions, List.foldlM_cons]
    cases wrap_function content f with
    | error e => rfl
    | ok c2 => simpa using ih c2

/-- Claim C6: with zero function-name arguments the run rewrites the file
with its own content (byte-for-byte unchanged) and prints a count of 0. -/
theorem claim6_zero_functions (c filename : List Char) :
    runScript (.file true c) [] filename =
      (.file true c, .ok ("Wrapped 0 functions in ".data ++ filename)) := rfl

/-- Claim C7: whenever the run completes, it prints `Wrapped <count>
functions in <filename>` with `<count>` the number of function-name
arguments, whatever substitutions did or did not happen to the content. -/
theorem claim7_count_all_args {content result : List Char}
    (functions : List (List Char)) (filename : List Char)
    (h : processFunctions content functions = .ok result) :
    runScript (.file true content) functions filename =
      (.file true result,
        .ok ("Wrapped ".data ++ (Nat.repr functions.length).data ++
          " functions in ".data ++ filename)) := by
  simp only [runScript, readFile, h, writeFile, summaryLine]

/-- Witness for C7 at a name whose patterns match nothing: the content is
untouched and the count is still 1. -/
theorem claim7_count_all_args_witness :
    runScript (.file true "hello".data) ["save".data] "a.ts".data =
      (.file true "hello".data,
        .ok ("Wrapped ".data ++ (Nat.repr 1).data ++
          " functions in ".data ++ "a.ts".data)) :=
  claim7_count_all_args ["save".data] "a.ts".data (by rfl)

/-- Claim C8: when reading the target file fails, the error propagates as the
run's outcome and the file state is unchanged (it is never opened for
writing). -/
theorem claim8_read_failure {st : FileState} {e : String}
    (functions : List (List Char)) (filename : List Char)
    (h : readFile st = .error e) :
    runScript st functions filename = (st, .error e) := by
  unfold runScript
  rw [h]

/-- Witness for C8: a missing file. -/
theorem claim8_read_failure_witness :
    readFile .absent = .error "FileNotFoundError" ∧
    runScript .absent ["save".data] "a.ts".data =
      (.absent, .error "FileNotFoundError") :=
  ⟨rfl, claim8_read_failure ["save".data] "a.ts".data rfl⟩

/-- Claim C9: the text substituted for a failure block is a constant that
does not depend on the function-name argument: for any two names whose entry
patterns compile and do not match the content, `wrap_function` gives equal
results; and the constant contains the literal characters
`\x7bfunction_name\x7d` and the control character U+0002. -/
theorem claim9_constant_catch_replacement {c f g : List Char} {rf rg : RE}
    (hf : compileRE (pattern f) = some rf) (hfm : findFrom rf c = none)
    (hg : compileRE (pattern g) = some rg) (hgm : findFrom rg c = none) :
    wrap_function c f = wrap_function c g ∧
    "\x7bfunction_name\x7d".data <:+: catch_replacement ∧
    '\x02' ∈ catch_replacement := by
  refine ⟨?_, by decide, by decide⟩
  rw [wrap_function_eq hf, wrap_function_eq hg, reGsub_of_none hfm,
    reGsub_of_none hgm]

/-- Claim C3 as amended: non-occurrence of the name makes the entry rewrite
a no-op, but it does not make `wrap_function` the identity, because the
failure-block substitution is not tied to the name (and a name with regex
metacharacters aborts instead).  For an identifier name that does not occur
in the content, on a content with no failure-block match, the output equals
the input. -/
theorem claim3_amended {c f : List Char}
    (hf : ∀ a ∈ f, identChar a = true)
    (hocc : ¬ (f <:+: c))
    (hcatch : findFrom catchRE c = none) :
    wrap_function c f = .ok c := by
  have hcomp := compile_pattern_ident hf
  have hnf : ¬ (("export async function ".data ++ f) <:+: c) := by
    intro hin
    exact hocc (((List.suffix_append "export async function ".data f).isInfix).trans hin)
  have hA : findFrom (patARE f) c = none := findFrom_patARE_none hnf
  rw [wrap_function_eq hcomp, reGsub_of_none hA, reGsub_of_none hcatch]

/-- Witness for the amended C3: the name `save` on the content `let x = 1;`. -/
theorem claim3_amended_witness :
    (∀ a ∈ "save".data, identChar a = true) ∧
    ¬ ("save".data <:+: "let x = 1;".data) ∧
    findFrom catchRE "let x = 1;".data = none ∧
    wrap_function "let x = 1;".data "save".data = .ok "let x = 1;".data :=
  ⟨by decide, by decide, rfl, claim3_amended (by decide) (by decide) rfl⟩

/-- Witness for C9: the names `save` and `go` on content `hello`. -/
theorem claim9_constant_catch_replacement_witness :
    wrap_function "hello".data "save".data = wrap_function "hello".data "go".data ∧
    "\x7bfunction_name\x7d".data <:+: catch_replacement ∧
    '\x02' ∈ catch_replacement :=
  @claim9_constant_catch_replacement "hello".data "save".data "go".data
    (patARE "save".data) (patARE "go".data) (by decide) rfl (by decide) rfl

end WrapFunctions
